import Mathlib

/-!
Verification development for the cleanlogservice repository (src/main.go).

The cleanup pass (cleanDirectories), the argument dispatch in main, the
config loader, the Stop callback and the scheduling set-up in run are
shallowly embedded below.  Filesystem outcomes (enumeration, stat, remove)
are recorded as explicit failure flags on the modeled directory tree, so a
single run is a pure function from the pre-state to the post-state plus
the report it logs.
-/

namespace CleanLogService

/-- An immediate child of a configured directory, as enumerated by
os.ReadDir inside cleanDirectories (src/main.go lines 186-211).
modTime is info.ModTime().Unix() in seconds.  statFails models
file.Info() returning an error; deleteFails models os.Remove returning
an error for this entry. -/
structure FileEntry where
  name : String
  isDir : Bool
  modTime : Int
  statFails : Bool
  deleteFails : Bool
deriving DecidableEq, Repr

/-- One configured directory at the start of a run: readFails models
os.ReadDir(dir) returning an error; entries are the immediate children
in enumeration order. -/
structure Directory where
  path : String
  readFails : Bool
  entries : List FileEntry
deriving DecidableEq, Repr

/-- Mirror of the Go struct Config (src/main.go lines 16-20); Days is a
signed machine int in Go, modeled as Int. -/
structure Config where
  directories : List String
  days : Int
  time : String
deriving DecidableEq, Repr

/-- The two counters accumulated by cleanDirectories and logged at the end
of the run (src/main.go lines 182-183 and 214-215). -/
structure CleanupReport where
  successCount : Nat
  failureCount : Nat
deriving DecidableEq, Repr

/-- threshold := time.Now().AddDate(0, 0, -p.config.Days).Unix()
(src/main.go line 184), computed once per run.  A calendar day is modeled
as 86400 seconds. -/
def threshold (now days : Int) : Int := now - days * 86400

/-- Inner loop of cleanDirectories over the children of one readable
directory (src/main.go lines 192-211).  Per entry, in source order:
if file.Info() fails, failureCount++ and continue (entry kept);
else if the entry is not a directory and its mod time is strictly below
the threshold, os.Remove it — on error failureCount++ and continue
(entry kept), otherwise successCount++ (entry gone); any other entry is
left untouched.  Returns (surviving entries, successes, failures). -/
def cleanFiles (t : Int) : List FileEntry → List FileEntry × Nat × Nat
  | [] => ([], 0, 0)
  | f :: rest =>
    let r := cleanFiles t rest
    if f.statFails then (f :: r.1, r.2.1, r.2.2 + 1)
    else if !f.isDir && decide (f.modTime < t) then
      if f.deleteFails then (f :: r.1, r.2.1, r.2.2 + 1)
      else (r.1, r.2.1 + 1, r.2.2)
    else (f :: r.1, r.2.1, r.2.2)

/-- Outer loop of cleanDirectories (src/main.go lines 186-212): the
configured directories in order; when os.ReadDir fails the directory is
skipped with continue — nothing is logged and no counter changes. -/
def cleanDirs (t : Int) : List Directory → List Directory × Nat × Nat
  | [] => ([], 0, 0)
  | d :: rest =>
    let r := cleanDirs t rest
    if d.readFails then (d :: r.1, r.2.1, r.2.2)
    else
      let e := cleanFiles t d.entries
      ({ d with entries := e.1 } :: r.1, r.2.1 + e.2.1, r.2.2 + e.2.2)

/-- cleanDirectories (src/main.go lines 179-216): compute the threshold
once from the current time and config.Days, process every configured
directory, and return the post-run state together with the logged
report. -/
def cleanDirectories (days now : Int) (dirs : List Directory) :
    List Directory × CleanupReport :=
  let r := cleanDirs (threshold now days) dirs
  (r.1, ⟨r.2.1, r.2.2⟩)

/-- The post-run state of a single configured directory. -/
def cleanDir1 (t : Int) (d : Directory) : Directory :=
  if d.readFails then d else { d with entries := (cleanFiles t d.entries).1 }

/-- Successes contributed by one configured directory. -/
def dirSuccess (t : Int) (d : Directory) : Nat :=
  if d.readFails then 0 else (cleanFiles t d.entries).2.1

/-- Failures contributed by one configured directory. -/
def dirFailure (t : Int) (d : Directory) : Nat :=
  if d.readFails then 0 else (cleanFiles t d.entries).2.2

/-- An entry the run actually removes: stat succeeds, not a directory,
mod time strictly below the threshold, and the remove call succeeds. -/
def deletable (t : Int) (f : FileEntry) : Bool :=
  !f.statFails && !f.isDir && decide (f.modTime < t) && !f.deleteFails

/-- An entry that increments failureCount: its stat fails, or it is a
stale non-directory entry whose remove fails. -/
def countsFailure (t : Int) (f : FileEntry) : Bool :=
  f.statFails || (!f.statFails && !f.isDir && decide (f.modTime < t) && f.deleteFails)

/-- An entry whose deletion was attempted and failed (the only entries
for which the run logs a delete failure). -/
def deletionFailed (t : Int) (f : FileEntry) : Bool :=
  !f.statFails && !f.isDir && decide (f.modTime < t) && f.deleteFails

/-- Candidate notion used by the spec sentence behind claim C2, taken
from the claim wording: a non-directory immediate child whose
modification time is older than the threshold. -/
def claimStaleCandidate (t : Int) (f : FileEntry) : Bool :=
  !f.isDir && decide (f.modTime < t)

/-- Number of claim-C2 candidates over all configured directories. -/
def claimStaleCandidates (t : Int) (dirs : List Directory) : Nat :=
  (dirs.map (fun d => d.entries.countP (claimStaleCandidate t))).sum

/-- What successCount + failureCount actually accounts for in the code:
in each readable directory, every entry whose stat fails, plus every
successfully statted stale non-directory entry. -/
def accountedEntries (t : Int) (dirs : List Directory) : Nat :=
  (dirs.map (fun d =>
    if d.readFails then 0
    else d.entries.countP (fun f => f.statFails)
       + d.entries.countP (fun f => !f.statFails && !f.isDir && decide (f.modTime < t)))).sum

/-- What reaches the outside world from the scheduling set-up in run
(src/main.go lines 36-49): whether the cron job was registered and the
scheduler started, whether anything was written to the log, and whether
the process terminated. -/
structure RunEffects where
  cronScheduled : Bool
  errorLogged : Bool
  processTerminated : Bool
deriving DecidableEq, Repr

/-- The scheduling set-up in run (src/main.go lines 45-49): c.AddFunc on
config.Time either succeeds (job registered, c.Start called) or returns
an error, in which case run does `if err != nil { return }` — the
goroutine returns with no log line and without exiting the process,
while the service keeps running. addFuncOk is whether the cron
expression parsed. -/
def run (addFuncOk : Bool) : RunEffects :=
  if addFuncOk then ⟨true, false, false⟩ else ⟨false, false, false⟩

/-- Go channel close: closing an already-closed channel panics with
"close of closed channel"; otherwise the channel becomes closed. The
Bool result is the new closed state. -/
def closeChannel (alreadyClosed : Bool) : Except String Bool :=
  if alreadyClosed then Except.error "close of closed channel"
  else Except.ok true

/-- Stop (src/main.go lines 57-60) does close(p.exit) with no guard;
its argument is whether p.exit is already closed (true exactly when
Stop has run before on this program value). -/
def Stop (exitClosed : Bool) : Except String Bool := closeChannel exitClosed

/-- Events of the execution model for the two call sites of
cleanDirectories: the eager `go p.cleanDirectories()` in Start
(src/main.go line 31), launched as a plain goroutine outside the cron
chain, and a scheduler tick firing the job registered via c.AddFunc,
which IS wrapped by cron.SkipIfStillRunning (src/main.go lines 37-38). -/
inductive SchedEvent where
  | eagerStart
  | eagerFinish
  | tickFire
  | tickFinish
deriving DecidableEq, Repr

/-- Number of currently active cleanup executions, split by call site:
eagerRuns were started by the plain goroutine in Start, chainRuns by
cron ticks running under the SkipIfStillRunning wrapper. -/
structure SchedState where
  eagerRuns : Nat
  chainRuns : Nat
deriving DecidableEq, Repr

/-- One step of the execution model.  tickFire realises
cron.SkipIfStillRunning: a tick that fires while the chain's previous
invocation is still running is skipped.  eagerStart has no guard at
all — the goroutine in Start never consults the chain. -/
def schedStep (s : SchedState) : SchedEvent → SchedState
  | SchedEvent.eagerStart => { s with eagerRuns := s.eagerRuns + 1 }
  | SchedEvent.eagerFinish => { s with eagerRuns := s.eagerRuns - 1 }
  | SchedEvent.tickFire =>
      if 0 < s.chainRuns then s else { s with chainRuns := s.chainRuns + 1 }
  | SchedEvent.tickFinish => { s with chainRuns := s.chainRuns - 1 }

/-- State reached from the idle service after a sequence of events. -/
def schedRun (evs : List SchedEvent) : SchedState :=
  evs.foldl schedStep ⟨0, 0⟩

/-- Total number of cleanup executions active at once. -/
def activeRuns (s : SchedState) : Nat := s.eagerRuns + s.chainRuns

/-- What a program invocation does, as decided by main
(src/main.go lines 143-158). -/
inductive MainAction where
  | control (verb : String)
  | runService (configFilePath : String)
deriving DecidableEq, Repr

/-- Argument dispatch in main (src/main.go lines 143-158), over the full
os.Args (args.head is the program path).  With more than one element,
main hands args[1] to service.Control and returns before any
configuration is read; otherwise configFilePath starts as "" and is
overwritten from args[2] only when len(os.Args) > 2, after which the
config is loaded and the service runs. -/
def main (args : List String) : MainAction :=
  if 1 < args.length then MainAction.control (args.getD 1 "")
  else
    let configFilePath := if 2 < args.length then args.getD 2 "" else ""
    MainAction.runService configFilePath

/-- Where loadConfig (src/main.go lines 69-76) looks for the
configuration file: an explicitly passed path, or config.yaml next to
the executable when the path is empty. -/
inductive ConfigSource where
  | explicitFile (p : String)
  | executableDir
deriving DecidableEq, Repr

/-- The path resolution at the top of loadConfig. -/
def configSource (configFilePath : String) : ConfigSource :=
  if configFilePath ≠ "" then ConfigSource.explicitFile configFilePath
  else ConfigSource.executableDir

/-- loadConfig (src/main.go lines 62-95): viper reads and unmarshals the
file (modeled as the parsed argument; none is a read or unmarshal
error) and the resulting Config is returned as-is — no field of the
struct, in particular Days, is validated or clamped. -/
def loadConfig (parsed : Option Config) : Except String Config :=
  match parsed with
  | none => Except.error "config read failed"
  | some c => Except.ok c

/-! ### Helper lemmas about one cleanup pass -/

theorem cleanDirs_eq (t : Int) (ds : List Directory) :
    cleanDirs t ds =
      (ds.map (cleanDir1 t),
       (ds.map (dirSuccess t)).sum,
       (ds.map (dirFailure t)).sum) := by
  induction ds with
  | nil => rfl
  | cons d rest ih =>
    by_cases h : d.readFails = true <;>
      simp [cleanDirs, cleanDir1, dirSuccess, dirFailure, ih, h, Nat.add_comm]

theorem cleanDirectories_eq (days now : Int) (dirs : List Directory) :
    cleanDirectories days now dirs =
      (dirs.map (cleanDir1 (threshold now days)),
       ⟨(dirs.map (dirSuccess (threshold now days))).sum,
        (dirs.map (dirFailure (threshold now days))).sum⟩) := by
  simp [cleanDirectories, cleanDirs_eq]

theorem cleanFiles_success (t : Int) (es : List FileEntry) :
    (cleanFiles t es).2.1 = es.countP (deletable t) := by
  induction es with
  | nil => rfl
  | cons f rest ih =>
    rcases f with ⟨nm, dirb, mt, sf, df⟩
    cases sf <;> cases dirb <;> cases df <;> by_cases hm : mt < t <;>
      simp [cleanFiles, List.countP_cons, deletable, hm, ih]

theorem cleanFiles_failure (t : Int) (es : List FileEntry) :
    (cleanFiles t es).2.2 = es.countP (countsFailure t) := by
  induction es with
  | nil => rfl
  | cons f rest ih =>
    rcases f with ⟨nm, dirb, mt, sf, df⟩
    cases sf <;> cases dirb <;> cases df <;> by_cases hm : mt < t <;>
      simp [cleanFiles, List.countP_cons, countsFailure, hm, ih]

theorem cleanFiles_kept (t : Int) (es : List FileEntry) :
    (cleanFiles t es).1 = es.filter (fun f => !(deletable t f)) := by
  induction es with
  | nil => rfl
  | cons f rest ih =>
    rcases f with ⟨nm, dirb, mt, sf, df⟩
    cases sf <;> cases dirb <;> cases df <;> by_cases hm : mt < t <;>
      simp [cleanFiles, List.filter_cons, deletable, hm, ih]

theorem mem_cleanFiles_of_not_deletable (t : Int) {es : List FileEntry}
    {f : FileEntry} (hf : f ∈ es) (hd : deletable t f = false) :
    f ∈ (cleanFiles t es).1 := by
  rw [cleanFiles_kept]
  exact List.mem_filter.mpr ⟨hf, by simp [hd]⟩

theorem not_mem_cleanFiles_of_deletable (t : Int) {f : FileEntry}
    (hd : deletable t f = true) (es : List FileEntry) :
    f ∉ (cleanFiles t es).1 := by
  rw [cleanFiles_kept]
  intro hmem
  have := (List.mem_filter.mp hmem).2
  simp [hd] at this

theorem cleanFiles_output_not_deletable (t : Int) (es : List FileEntry) :
    ∀ g ∈ (cleanFiles t es).1, deletable t g = false := by
  intro g hg
  rw [cleanFiles_kept] at hg
  have := (List.mem_filter.mp hg).2
  simpa using this

theorem countP_success_add_failure (t : Int) (es : List FileEntry) :
    es.countP (deletable t) + es.countP (countsFailure t)
      = es.countP (fun f => f.statFails)
        + es.countP (fun f => !f.statFails && !f.isDir && decide (f.modTime < t)) := by
  induction es with
  | nil => rfl
  | cons f rest ih =>
    rcases f with ⟨nm, dirb, mt, sf, df⟩
    cases sf <;> cases dirb <;> cases df <;> by_cases hm : mt < t <;>
      simp [List.countP_cons, deletable, countsFailure, hm] <;> omega

theorem cleanDirs_count (t : Int) (ds : List Directory) :
    (cleanDirs t ds).2.1 + (cleanDirs t ds).2.2 = accountedEntries t ds := by
  induction ds with
  | nil => rfl
  | cons d rest ih =>
    have hfile := countP_success_add_failure t d.entries
    have hs := cleanFiles_success t d.entries
    have hf := cleanFiles_failure t d.entries
    by_cases h : d.readFails = true <;>
      simp [cleanDirs, accountedEntries, h, List.map_cons, List.sum_cons] at * <;>
      omega

theorem deletable_eq_false_of_countsFailure {t : Int} {f : FileEntry}
    (h : countsFailure t f = true) : deletable t f = false := by
  rcases f with ⟨nm, dirb, mt, sf, df⟩
  cases sf <;> cases dirb <;> cases df <;> by_cases hm : mt < t <;>
    simp_all [countsFailure, deletable, hm]

theorem dirSuccess_cleanDir1 (t : Int) (d : Directory) :
    dirSuccess t (cleanDir1 t d) = 0 := by
  by_cases h : d.readFails = true
  · simp [cleanDir1, dirSuccess, h]
  · simp only [Bool.not_eq_true] at h
    simp only [cleanDir1, dirSuccess, h, Bool.false_eq_true, if_false]
    rw [cleanFiles_success, List.countP_eq_zero]
    intro g hg
    have hnd := cleanFiles_output_not_deletable t d.entries g hg
    simp [hnd]

theorem chainRuns_le_one_foldl (evs : List SchedEvent) :
    ∀ s : SchedState, s.chainRuns ≤ 1 →
      (evs.foldl schedStep s).chainRuns ≤ 1 := by
  induction evs with
  | nil => intro s h; simpa using h
  | cons e rest ih =>
    intro s h
    simp only [List.foldl_cons]
    apply ih
    cases e with
    | eagerStart => exact h
    | eagerFinish => exact h
    | tickFire =>
      simp only [schedStep]
      split
      · exact h
      · show s.chainRuns + 1 ≤ 1
        omega
    | tickFinish =>
      show s.chainRuns - 1 ≤ 1
      omega

/-! ### Claim theorems -/

/-- Claim C3 (code bug exhibited): when the cron expression does not
parse, c.AddFunc returns an error and run does a bare `return`
(src/main.go lines 46-48): no job is scheduled, nothing is logged, and
the process does not terminate — the service keeps running with no
schedule, contradicting the spec's requirement that an invalid cron
expression be logged and fatal at startup. -/
theorem run_invalid_cron_is_silent :
    run false = ⟨false, false, false⟩ := rfl

/-- Claim C4 (code bug exhibited): Stop does close(p.exit) with no
guard (src/main.go lines 57-60).  The first Stop closes the channel;
a second Stop closes an already-closed channel, which panics instead of
being the defensive no-op the spec requires. -/
theorem stop_twice_panics :
    Stop false = Except.ok true
    ∧ Stop true = Except.error "close of closed channel" := ⟨rfl, rfl⟩

/-- Claim C8 counterexample: the eager invocation in Start is a plain
goroutine that never consults the cron chain, so starting it and then
firing a scheduler tick yields two cleanup executions active at once —
the single-flight guarantee does not cover the eager run. -/
theorem eager_run_overlaps_tick :
    activeRuns (schedRun [SchedEvent.eagerStart, SchedEvent.tickFire]) = 2 := rfl

/-- Claim C8 (amended): executions started by scheduler ticks are
single-flight — cron.SkipIfStillRunning skips a tick that fires while
the previous tick's invocation is still running, so along every event
sequence at most one chain execution is active.  (The eager startup
invocation is outside this guarantee, as the counterexample shows.) -/
theorem tick_executions_single_flight (evs : List SchedEvent) :
    (schedRun evs).chainRuns ≤ 1 :=
  chainRuns_le_one_foldl evs ⟨0, 0⟩ (by decide)

/-- Claim C10: with more than one element in os.Args, main hands
os.Args[1] to service.Control and returns before the configuration is
read; in every invocation that reaches the service path the config file
path is the empty string, i.e. the branch taking it from os.Args[2] is
unreachable and loadConfig resolves the file from the executable's own
directory. -/
theorem main_control_verb_precedes_config (args : List String) (p : String) :
    (1 < args.length → main args = MainAction.control (args.getD 1 ""))
    ∧ (main args = MainAction.runService p →
        p = "" ∧ configSource p = ConfigSource.executableDir) := by
  constructor
  · intro h
    simp [main, h]
  · intro h
    by_cases h1 : 1 < args.length
    · simp [main, h1] at h
    · have h2 : ¬ 2 < args.length := by omega
      simp [main, h1, h2] at h
      subst h
      exact ⟨rfl, rfl⟩

/-- Witness for C10 at concrete inputs: a control-verb invocation and a
no-argument service invocation. -/
theorem main_control_verb_precedes_config_witness :
    main ["prog", "install"] = MainAction.control "install"
    ∧ ("" = "" ∧ configSource "" = ConfigSource.executableDir) :=
  ⟨(main_control_verb_precedes_config ["prog", "install"] "").1 (by decide),
   (main_control_verb_precedes_config ["prog"] "").2 (by rfl)⟩

/-- Claim C1 counterexample: a run in which two stale non-directory
children survive although no deletion was logged as a failure — one
because its directory's enumeration failed, one because its own stat
failed.  Both entries are strictly older than the threshold
(threshold 1000000 3 = 740800 > 0), yet still exist after the run. -/
theorem stale_survivors_without_delete_failure :
    (⟨"stale1", false, 0, false, false⟩ : FileEntry) ∈
      (((cleanDirectories 3 1000000
          [⟨"a", true, [⟨"stale1", false, 0, false, false⟩]⟩,
           ⟨"b", false, [⟨"stale2", false, 0, true, false⟩]⟩]).1.getD 0
            ⟨"", false, []⟩).entries)
    ∧ (⟨"stale2", false, 0, true, false⟩ : FileEntry) ∈
      (((cleanDirectories 3 1000000
          [⟨"a", true, [⟨"stale1", false, 0, false, false⟩]⟩,
           ⟨"b", false, [⟨"stale2", false, 0, true, false⟩]⟩]).1.getD 1
            ⟨"", false, []⟩).entries)
    ∧ (0 : Int) < threshold 1000000 3
    ∧ deletionFailed (threshold 1000000 3) ⟨"stale1", false, 0, false, false⟩ = false
    ∧ deletionFailed (threshold 1000000 3) ⟨"stale2", false, 0, true, false⟩ = false := by
  decide

/-- Claim C1 (amended): in every run, every stale non-directory
immediate child of a configured directory whose enumeration succeeded
and whose own stat succeeded is gone after the run when its remove call
succeeds, and still present (unchanged, as the same entry) when its
remove call fails — the failure that is then counted and logged. -/
theorem cleanDirectories_stale_file_fate (days now : Int)
    (dirs : List Directory) (d : Directory) (f : FileEntry)
    (_hd : d ∈ dirs) (hf : f ∈ d.entries)
    (hread : d.readFails = false) (hstat : f.statFails = false)
    (hdir : f.isDir = false) (hstale : f.modTime < threshold now days) :
    (cleanDirectories days now dirs).1
      = dirs.map (cleanDir1 (threshold now days))
    ∧ (f.deleteFails = false →
        f ∉ (cleanDir1 (threshold now days) d).entries)
    ∧ (f.deleteFails = true →
        f ∈ (cleanDir1 (threshold now days) d).entries) := by
  refine ⟨by simp [cleanDirectories_eq], ?_, ?_⟩
  · intro hdel
    have hdble : deletable (threshold now days) f = true := by
      simp [deletable, hstat, hdir, hstale, hdel]
    simp only [cleanDir1, hread, Bool.false_eq_true, if_false]
    exact not_mem_cleanFiles_of_deletable _ hdble d.entries
  · intro hdel
    have hndble : deletable (threshold now days) f = false := by
      simp [deletable, hdel]
    simp only [cleanDir1, hread, Bool.false_eq_true, if_false]
    exact mem_cleanFiles_of_not_deletable _ hf hndble

/-- Witness for the amended C1: one readable directory holding one stale
statted file whose remove succeeds; the file is absent from the
post-state. -/
theorem cleanDirectories_stale_file_fate_witness :
    (cleanDirectories 3 1000000
        [⟨"w", false, [⟨"wf", false, 0, false, false⟩]⟩]).1
      = [⟨"w", false, [⟨"wf", false, 0, false, false⟩]⟩].map
          (cleanDir1 (threshold 1000000 3))
    ∧ ((⟨"wf", false, 0, false, false⟩ : FileEntry).deleteFails = false →
        (⟨"wf", false, 0, false, false⟩ : FileEntry) ∉
          (cleanDir1 (threshold 1000000 3)
            ⟨"w", false, [⟨"wf", false, 0, false, false⟩]⟩).entries)
    ∧ ((⟨"wf", false, 0, false, false⟩ : FileEntry).deleteFails = true →
        (⟨"wf", false, 0, false, false⟩ : FileEntry) ∈
          (cleanDir1 (threshold 1000000 3)
            ⟨"w", false, [⟨"wf", false, 0, false, false⟩]⟩).entries) :=
  cleanDirectories_stale_file_fate 3 1000000
    [⟨"w", false, [⟨"wf", false, 0, false, false⟩]⟩]
    ⟨"w", false, [⟨"wf", false, 0, false, false⟩]⟩
    ⟨"wf", false, 0, false, false⟩
    (by decide) (by decide) (by decide) (by decide) (by decide) (by decide)

/-- Claim C2 counterexample: a readable directory holding a single
subdirectory whose stat call fails.  The run reports
successCount + failureCount = 1, but the number of stale candidates
(non-directory children older than the threshold) is 0 — the stat
failure of a non-candidate is counted. -/
theorem report_counts_nonstale_stat_failure :
    (cleanDirectories 3 1000000
        [⟨"c", false, [⟨"sub", true, 0, true, false⟩]⟩]).2.successCount
      + (cleanDirectories 3 1000000
        [⟨"c", false, [⟨"sub", true, 0, true, false⟩]⟩]).2.failureCount = 1
    ∧ claimStaleCandidates (threshold 1000000 3)
        [⟨"c", false, [⟨"sub", true, 0, true, false⟩]⟩] = 0 := by
  decide

/-- Claim C2 (amended): in every run, successCount + failureCount
equals, over the readable configured directories, the number of entries
whose stat call failed plus the number of successfully statted stale
non-directory entries; each such entry is counted exactly once and
none is dropped.  (Entries of unreadable directories are never counted,
and a stat failure is counted even for fresh files and
subdirectories.) -/
theorem cleanDirectories_report_accounting (days now : Int)
    (dirs : List Directory) :
    (cleanDirectories days now dirs).2.successCount
      + (cleanDirectories days now dirs).2.failureCount
      = accountedEntries (threshold now days) dirs := by
  simpa [cleanDirectories] using
    cleanDirs_count (threshold now days) dirs

/-- Claim C5 counterexample: a configured directory whose enumeration
fails, holding a stale file.  The run returns the state unchanged with
report (0, 0): the unreadable directory is neither logged nor counted
as a failure, contradicting the claim that every recoverable error is
counted. -/
theorem unreadable_dir_skipped_silently :
    cleanDirectories 3 1000000
        [⟨"u", true, [⟨"old", false, 0, false, false⟩]⟩]
      = ([⟨"u", true, [⟨"old", false, 0, false, false⟩]⟩], ⟨0, 0⟩)
    ∧ (0 : Int) < threshold 1000000 3 := by
  constructor
  · rfl
  · decide

/-- Claim C5 (amended): no per-item error aborts the run — every
configured directory is processed regardless of what happens in the
others; a directory whose enumeration fails is skipped silently,
unchanged and contributing zero failures (not counted, unlike the claim
states); within a readable directory, exactly the entries whose stat
fails or whose deletion fails are counted as failures, and each such
entry is kept while processing continues. -/
theorem cleanDirectories_errors_recoverable (days now : Int)
    (pre post : List Directory) (d : Directory) (f : FileEntry) :
    (cleanDirectories days now (pre ++ d :: post)).1
      = (cleanDirectories days now pre).1
        ++ cleanDir1 (threshold now days) d
          :: (cleanDirectories days now post).1
    ∧ (d.readFails = true →
        cleanDir1 (threshold now days) d = d
        ∧ dirFailure (threshold now days) d = 0)
    ∧ (d.readFails = false →
        dirFailure (threshold now days) d
          = d.entries.countP (countsFailure (threshold now days)))
    ∧ (d.readFails = false → f ∈ d.entries →
        countsFailure (threshold now days) f = true →
        f ∈ (cleanDir1 (threshold now days) d).entries) := by
  refine ⟨by simp [cleanDirectories_eq], ?_, ?_, ?_⟩
  · intro h
    simp [cleanDir1, dirFailure, h]
  · intro h
    simp only [dirFailure, h, Bool.false_eq_true, if_false]
    exact cleanFiles_failure _ _
  · intro h hf hc
    simp only [cleanDir1, h, Bool.false_eq_true, if_false]
    exact mem_cleanFiles_of_not_deletable _ hf
      (deletable_eq_false_of_countsFailure hc)

/-- Witness for the amended C5: a readable directory with one entry
whose stat fails (counted, kept) and an unreadable directory (silently
unchanged, zero failures). -/
theorem cleanDirectories_errors_recoverable_witness :
    dirFailure (threshold 1000000 3) ⟨"p", false, [⟨"pf", false, 0, true, false⟩]⟩
      = [(⟨"pf", false, 0, true, false⟩ : FileEntry)].countP
          (countsFailure (threshold 1000000 3))
    ∧ (⟨"pf", false, 0, true, false⟩ : FileEntry) ∈
        (cleanDir1 (threshold 1000000 3)
          ⟨"p", false, [⟨"pf", false, 0, true, false⟩]⟩).entries
    ∧ cleanDir1 (threshold 1000000 3) ⟨"q", true, []⟩ = ⟨"q", true, []⟩ :=
  ⟨(cleanDirectories_errors_recoverable 3 1000000 [] []
      ⟨"p", false, [⟨"pf", false, 0, true, false⟩]⟩
      ⟨"pf", false, 0, true, false⟩).2.2.1 rfl,
   (cleanDirectories_errors_recoverable 3 1000000 [] []
      ⟨"p", false, [⟨"pf", false, 0, true, false⟩]⟩
      ⟨"pf", false, 0, true, false⟩).2.2.2 rfl (by decide) (by decide),
   ((cleanDirectories_errors_recoverable 3 1000000 [] []
      ⟨"q", true, []⟩ ⟨"pf", false, 0, true, false⟩).2.1 rfl).1⟩

/-- Claim C6: an immediate child that is a directory, or whose
modification time is at or above the threshold, survives the run
unchanged — the run only ever removes stale non-directory entries. -/
theorem cleanDirectories_fresh_and_dirs_untouched (days now : Int)
    (dirs : List Directory) (d : Directory) (f : FileEntry)
    (_hd : d ∈ dirs) (hf : f ∈ d.entries)
    (h : f.isDir = true ∨ threshold now days ≤ f.modTime) :
    (cleanDirectories days now dirs).1
      = dirs.map (cleanDir1 (threshold now days))
    ∧ f ∈ (cleanDir1 (threshold now days) d).entries := by
  refine ⟨by simp [cleanDirectories_eq], ?_⟩
  have hnd : deletable (threshold now days) f = false := by
    rcases h with h | h
    · simp [deletable, h]
    · have hlt : ¬ f.modTime < threshold now days := not_lt.mpr h
      simp [deletable, hlt]
  by_cases hr : d.readFails = true
  · simp [cleanDir1, hr, hf]
  · simp only [Bool.not_eq_true] at hr
    simp only [cleanDir1, hr, Bool.false_eq_true, if_false]
    exact mem_cleanFiles_of_not_deletable _ hf hnd

/-- Witness for C6: a fresh file (mod time equal to now, above the
threshold) survives the run. -/
theorem cleanDirectories_fresh_and_dirs_untouched_witness :
    (cleanDirectories 3 1000000
        [⟨"v", false, [⟨"vf", false, 1000000, false, false⟩]⟩]).1
      = [⟨"v", false, [⟨"vf", false, 1000000, false, false⟩]⟩].map
          (cleanDir1 (threshold 1000000 3))
    ∧ (⟨"vf", false, 1000000, false, false⟩ : FileEntry) ∈
        (cleanDir1 (threshold 1000000 3)
          ⟨"v", false, [⟨"vf", false, 1000000, false, false⟩]⟩).entries :=
  cleanDirectories_fresh_and_dirs_untouched 3 1000000
    [⟨"v", false, [⟨"vf", false, 1000000, false, false⟩]⟩]
    ⟨"v", false, [⟨"vf", false, 1000000, false, false⟩]⟩
    ⟨"vf", false, 1000000, false, false⟩
    (by decide) (by decide) (Or.inr (by decide))

/-- Claim C7: running the pass twice with the same clock is idempotent
on successes — everything the first run could delete is gone, so the
second run reports successCount = 0 (entries that survived did so
because of their stat or delete failure flags or freshness, and they
behave the same way again). -/
theorem cleanDirectories_second_run_no_successes (days now : Int)
    (dirs : List Directory) :
    (cleanDirectories days now
        (cleanDirectories days now dirs).1).2.successCount = 0 := by
  simp only [cleanDirectories_eq, List.map_map]
  apply List.sum_eq_zero
  intro x hx
  rw [List.mem_map] at hx
  obtain ⟨d, hd, rfl⟩ := hx
  exact dirSuccess_cleanDir1 _ _

/-- Claim C9: loadConfig returns the unmarshalled Config without
validating Days, and with a negative Days the once-per-run threshold
lies in the future, so in a failure-free run every non-directory child
whose modification time is in the past is removed. -/
theorem negative_days_deletes_all_past_files (c : Config) (now : Int)
    (dirs : List Directory) (d : Directory) (f : FileEntry)
    (hdays : c.days < 0) (_hd : d ∈ dirs) (_hf : f ∈ d.entries)
    (hread : d.readFails = false) (hstat : f.statFails = false)
    (hdel : f.deleteFails = false) (hdir : f.isDir = false)
    (hpast : f.modTime < now) :
    loadConfig (some c) = Except.ok c
    ∧ now < threshold now c.days
    ∧ (cleanDirectories c.days now dirs).1
        = dirs.map (cleanDir1 (threshold now c.days))
    ∧ f ∉ (cleanDir1 (threshold now c.days) d).entries := by
  have hfut : now < threshold now c.days := by
    simp only [threshold]
    omega
  refine ⟨rfl, hfut, by simp [cleanDirectories_eq], ?_⟩
  have hdble : deletable (threshold now c.days) f = true := by
    have hlt : f.modTime < threshold now c.days := lt_trans hpast hfut
    simp [deletable, hstat, hdir, hdel, hlt]
  simp only [cleanDir1, hread, Bool.false_eq_true, if_false]
  exact not_mem_cleanFiles_of_deletable _ hdble d.entries

/-- Witness for C9: days = -1 puts the threshold one day in the future
and a file last modified before now is removed. -/
theorem negative_days_deletes_all_past_files_witness :
    loadConfig (some ⟨["x"], -1, "0 0 2 * * *"⟩)
      = Except.ok ⟨["x"], -1, "0 0 2 * * *"⟩
    ∧ (0 : Int) < threshold 0 (-1)
    ∧ (cleanDirectories (-1) 0
        [⟨"x", false, [⟨"xf", false, -5, false, false⟩]⟩]).1
        = [⟨"x", false, [⟨"xf", false, -5, false, false⟩]⟩].map
            (cleanDir1 (threshold 0 (-1)))
    ∧ (⟨"xf", false, -5, false, false⟩ : FileEntry) ∉
        (cleanDir1 (threshold 0 (-1))
          ⟨"x", false, [⟨"xf", false, -5, false, false⟩]⟩).entries :=
  negative_days_deletes_all_past_files ⟨["x"], -1, "0 0 2 * * *"⟩ 0
    [⟨"x", false, [⟨"xf", false, -5, false, false⟩]⟩]
    ⟨"x", false, [⟨"xf", false, -5, false, false⟩]⟩
    ⟨"xf", false, -5, false, false⟩
    (by decide) (by decide) (by decide) (by decide) (by decide) (by decide)
    (by decide) (by decide)

end CleanLogService
